import Mathlib

/-!
Verification of the spot-trading bot (risk sizing, indicators, signal
evaluation, order orchestration) against its design document.

The Python source is shallowly embedded: Python floats are modelled as exact
rationals (ℚ); pandas/numpy special values (NaN and signed infinity, which
arise in the RSI computation through division by zero and NaN comparisons)
are modelled by the inductive type `PVal`; Python `None` results and raised
exceptions from collaborator calls are modelled with `Option`; an uncaught
index error inside entry evaluation is modelled with `Except Unit`.
Float literals in the source (0.95, 1.01, 1.5) are modelled as the exact
rationals 19/20, 101/100, 3/2.
-/

/- ===== bot/risk_manager.py ===== -/

/-- Risk configuration extracted in `RiskManager.__init__` from
`config['risk']`. -/
structure RiskConfig where
  maxRiskPerTradePct : ℚ
  maxOpenPositions : ℕ

/-- Embedding of `RiskManager.round_to_step_size`.  The source also computes
a local `precision` from `math.log(step_size, 10)`, but that local is dead
code (never read), so it is not modelled. -/
def roundToStepSize (quantity stepSize : ℚ) : ℚ :=
  if stepSize = 0 then quantity
  else
    let factor := 1 / stepSize
    (⌊quantity * factor⌋ : ℚ) / factor

/-- Embedding of `RiskManager.calculate_position_size`.  The source computes
`quantity`/`notional`, reassigns both inside the `notional < min_notional`
branch, and then runs a single 95%-of-balance check on whichever values are
current; here that shared final check is duplicated into the two branches,
which is semantically identical. -/
def calculatePositionSize (cfg : RiskConfig)
    (balance entryPrice stopLoss minNotional stepSize : ℚ) : ℚ :=
  let riskAmount := balance * (cfg.maxRiskPerTradePct / 100)
  let priceDistance := |entryPrice - stopLoss|
  if priceDistance = 0 then 0
  else
    let quantity := roundToStepSize (riskAmount / priceDistance) stepSize
    let notional := quantity * entryPrice
    if notional < minNotional then
      let quantity2 := roundToStepSize ((minNotional / entryPrice) * (101/100)) stepSize
      let notional2 := quantity2 * entryPrice
      let actualRiskPct := quantity2 * priceDistance / balance * 100
      if actualRiskPct > cfg.maxRiskPerTradePct * (3/2) then 0
      else if notional2 > balance * (19/20) then 0
      else quantity2
    else if notional > balance * (19/20) then 0
    else quantity

/-- Embedding of `RiskManager.can_open_position`. -/
def canOpenPosition (cfg : RiskConfig) (currentPositions : ℕ) : Bool :=
  currentPositions < cfg.maxOpenPositions

/-- Embedding of `RiskManager.validate_trade` (the error strings are kept
without the interpolated numbers). -/
def validateTrade (quantity price balance minNotional : ℚ) : Bool × String :=
  if quantity ≤ 0 then (false, "Invalid quantity: must be greater than 0")
  else if price ≤ 0 then (false, "Invalid price: must be greater than 0")
  else
    let notional := quantity * price
    if notional < minNotional then (false, "Notional value below minimum")
    else if notional > balance then (false, "Insufficient balance")
    else (true, "")

/-- Claim C6: for every quantity `q ≥ 0` and step size `s > 0`,
`round_to_step_size q s` never rounds up (result ≤ q) and the result is an
integer multiple of the step size. -/
theorem round_to_step_never_up (q s : ℚ) (_hq : 0 ≤ q) (hs : 0 < s) :
    roundToStepSize q s ≤ q ∧ ∃ n : ℤ, roundToStepSize q s = n * s := by
  have hs0 : s ≠ 0 := ne_of_gt hs
  have hf : (0 : ℚ) < 1 / s := by positivity
  unfold roundToStepSize
  rw [if_neg hs0]
  constructor
  · have h1 : (⌊q * (1 / s)⌋ : ℚ) ≤ q * (1 / s) := Int.floor_le _
    calc (⌊q * (1 / s)⌋ : ℚ) / (1 / s) ≤ (q * (1 / s)) / (1 / s) := by
          exact div_le_div_of_nonneg_right h1 hf.le |>.trans_eq rfl
    _ = q := by field_simp
  · refine ⟨⌊q * (1 / s)⌋, ?_⟩
    rw [div_eq_mul_inv, one_div, inv_inv]

/-- Witness for C6 at q = 10/3, s = 1. -/
theorem round_to_step_never_up_witness :
    roundToStepSize (10/3) 1 ≤ 10/3 ∧ ∃ n : ℤ, roundToStepSize (10/3) 1 = n * 1 :=
  round_to_step_never_up (10/3) 1 (by norm_num) (by norm_num)

/-- Claim C9: a zero step size is explicitly guarded in
`round_to_step_size`: the quantity is passed through unchanged and no
division by zero occurs. -/
theorem round_to_step_zero_step (q : ℚ) : roundToStepSize q 0 = q := by
  simp [roundToStepSize]

/-- Claim C1: when the raw risk-sized quantity's notional falls below the
exchange minimum, `calculate_position_size` returns 0 whenever the
min-notional-bumped quantity's actual risk (quantity times stop distance)
exceeds 1.5 times the configured per-trade risk budget, and it never
returns a positive quantity whose risk exceeds that tolerance. -/
theorem position_size_min_notional_risk_guard (cfg : RiskConfig)
    (b e s mn st : ℚ) (hb : 0 < b) (_he : 0 < e) (hne : s ≠ e)
    (hraw : roundToStepSize (b * (cfg.maxRiskPerTradePct / 100) / |e - s|) st * e < mn) :
    (roundToStepSize (mn / e * (101/100)) st * |e - s| >
        (3/2) * (cfg.maxRiskPerTradePct / 100) * b →
      calculatePositionSize cfg b e s mn st = 0) ∧
    (0 < calculatePositionSize cfg b e s mn st →
      calculatePositionSize cfg b e s mn st * |e - s| ≤
        (3/2) * (cfg.maxRiskPerTradePct / 100) * b) := by
  have hdist : |e - s| ≠ 0 := by
    simp only [abs_ne_zero, sub_ne_zero]
    exact fun h => hne h.symm
  have hguard : ∀ q2 : ℚ,
      (q2 * |e - s| / b * 100 > cfg.maxRiskPerTradePct * (3/2) ↔
        q2 * |e - s| > (3/2) * (cfg.maxRiskPerTradePct / 100) * b) := by
    intro q2
    rw [gt_iff_lt, gt_iff_lt, div_mul_eq_mul_div, lt_div_iff₀ hb]
    constructor <;> intro h <;> nlinarith
  simp only [calculatePositionSize, if_neg hdist, if_pos hraw]
  constructor
  · intro hrisk
    rw [if_pos ((hguard _).mpr hrisk)]
  · intro hq
    split_ifs at hq ⊢ with h1 h2
    · exact absurd hq (lt_irrefl 0)
    · exact absurd hq (lt_irrefl 0)
    · exact le_of_not_lt (fun hlt => h1 ((hguard _).mpr hlt))

/-- Witness for C1: balance 1000, risk 1%, entry 100, stop 90, min notional
200, step 1.  The raw quantity 1 has notional 100 < 200; the bumped
quantity 2 carries risk 20 > 15 (the 1.5% tolerance), so the sizer
refuses. -/
theorem position_size_min_notional_risk_guard_witness :
    calculatePositionSize ⟨1, 1⟩ 1000 100 90 200 1 = 0 :=
  (position_size_min_notional_risk_guard ⟨1, 1⟩ 1000 100 90 200 1
      (by norm_num) (by norm_num) (by norm_num)
      (by norm_num [roundToStepSize])).1
    (by norm_num [roundToStepSize])

/-- Claim C2: a positive quantity returned by `calculate_position_size`
always has notional at most 95% of balance, and the documented scenario
(balance 1000, risk 1%, entry 100, stop 99, min notional 10, step 0.001)
is rejected with quantity 0. -/
theorem position_size_notional_cap :
    (∀ (cfg : RiskConfig) (b e s mn st : ℚ), 0 < b → 0 < e →
      0 < calculatePositionSize cfg b e s mn st →
      calculatePositionSize cfg b e s mn st * e ≤ b * (19/20)) ∧
    calculatePositionSize ⟨1, 1⟩ 1000 100 99 10 (1/1000) = 0 := by
  constructor
  · intro cfg b e s mn st _ _ hq
    simp only [calculatePositionSize] at hq ⊢
    split_ifs at hq ⊢ with h1 h2 h3 h4 h5 <;>
      first
        | exact absurd hq (lt_irrefl 0)
        | (push_neg at *; linarith)
  · norm_num [calculatePositionSize, roundToStepSize]

/-- Witness for the universally quantified part of C2: with balance 1000,
risk 1%, entry 100, stop 98, min notional 10, step 0.001 the sizer returns
the positive quantity 5 and its notional 500 is within the 95% cap. -/
theorem position_size_notional_cap_witness :
    calculatePositionSize ⟨1, 1⟩ 1000 100 98 10 (1/1000) * 100 ≤ 1000 * (19/20) :=
  position_size_notional_cap.1 ⟨1, 1⟩ 1000 100 98 10 (1/1000)
    (by norm_num) (by norm_num)
    (by norm_num [calculatePositionSize, roundToStepSize])

/- ===== bot/data_fetcher.py ===== -/

/-- One entry of `account['balances']` as used by
`DataFetcher.get_account_balance`. -/
structure AssetBalance where
  asset : String
  free : ℚ

/-- Embedding of `DataFetcher.get_account_balance`.  The argument models the
outcome of `client.get_account()`: `none` when the call raises (the
`except` branches return Python `None`), `some balances` on success.  The
`for` loop returns the first entry whose asset matches, else `0.0`. -/
def getAccountBalance (account : Option (List AssetBalance)) (asset : String) :
    Option ℚ :=
  match account with
  | none => none
  | some balances =>
    match balances.find? (fun b => b.asset == asset) with
    | some b => some b.free
    | none => some 0

/-- One entry of `symbol_info['filters']` as read by
`DataFetcher.get_min_notional`; `minNotional` is `none` when the key is
absent (the source uses `f.get('minNotional', 10.0)`). -/
structure SymbolFilter where
  filterType : String
  minNotional : Option ℚ

/-- One entry of `exchange_info['symbols']`. -/
structure SymbolInfo where
  symbol : String
  filters : List SymbolFilter

/-- Embedding of `DataFetcher.get_symbol_info`.  The argument models the
outcome of `client.get_exchange_info()`: `none` when the call raises
(network/API failure), `some symbols` on success.  Both the failure branch
and the symbol-not-found fall-through return Python `None`, so the two
outcomes are indistinguishable in the result. -/
def getSymbolInfo (exchangeInfo : Option (List SymbolInfo)) (symbol : String) :
    Option SymbolInfo :=
  match exchangeInfo with
  | none => none
  | some symbols => symbols.find? (fun s => s.symbol == symbol)

/-- Embedding of `DataFetcher.get_min_notional`: any `None` from
`get_symbol_info` is coerced to the plain default `10.0`. -/
def getMinNotional (exchangeInfo : Option (List SymbolInfo)) (symbol : String) : ℚ :=
  match getSymbolInfo exchangeInfo symbol with
  | none => 10
  | some si =>
    match si.filters.find? (fun f => f.filterType == "NOTIONAL") with
    | some f => f.minNotional.getD 10
    | none => 10

/-- Claim C4 (code bug): on a transient/network failure of the exchange-info
lookup, `get_min_notional` silently returns the plain default `10.0`
rather than a tagged failure; the failure outcome of `get_symbol_info` is
in fact indistinguishable from the not-found outcome. -/
theorem min_notional_default_on_transient_failure :
    getMinNotional none "BTCUSDT" = 10 ∧
    getSymbolInfo none "BTCUSDT" = getSymbolInfo (some []) "BTCUSDT" := by
  constructor <;> rfl

/-- Claim C10: when the account fetch succeeds but the requested asset is
absent from the balance list, `get_account_balance` returns the successful
value `0.0`; the `None` failure outcome occurs exactly when the underlying
account fetch itself fails. -/
theorem account_balance_missing_asset_zero :
    (∀ (balances : List AssetBalance) (asset : String),
      (∀ b ∈ balances, b.asset ≠ asset) →
      getAccountBalance (some balances) asset = some 0) ∧
    (∀ (account : Option (List AssetBalance)) (asset : String),
      (getAccountBalance account asset = none ↔ account = none)) := by
  constructor
  · intro balances asset habs
    have : balances.find? (fun b => b.asset == asset) = none := by
      rw [List.find?_eq_none]
      intro b hb
      simpa using habs b hb
    simp [getAccountBalance, this]
  · intro account asset
    match account with
    | none => simp [getAccountBalance]
    | some balances =>
      simp only [getAccountBalance]
      constructor
      · intro h
        cases hf : balances.find? (fun b => b.asset == asset) with
        | none => rw [hf] at h; exact absurd h (by simp)
        | some b => rw [hf] at h; exact absurd h (by simp)
      · intro h; exact absurd h (by simp)

/-- Witness for C10: a balance list holding only BTC yields a successful
zero balance for USDT. -/
theorem account_balance_missing_asset_zero_witness :
    getAccountBalance (some [⟨"BTC", 5⟩]) "USDT" = some 0 :=
  account_balance_missing_asset_zero.1 [⟨"BTC", 5⟩] "USDT"
    (by intro b hb; simp at hb; simp [hb])

/- ===== bot/strategy.py ===== -/

/-- Model of a pandas/numpy float cell: an exact rational, NaN, or a signed
infinity.  NaN and infinity arise in `calculate_rsi` (division of rolling
means, where a zero average loss produces an infinite relative strength and
an incomplete window produces NaN). -/
inductive PVal where
  | nan : PVal
  | inf : PVal
  | neginf : PVal
  | num : ℚ → PVal
deriving DecidableEq

/-- IEEE-style addition on `PVal` (NaN propagates, infinities absorb). -/
def PVal.add : PVal → PVal → PVal
  | nan, _ => nan
  | _, nan => nan
  | inf, neginf => nan
  | neginf, inf => nan
  | inf, _ => inf
  | _, inf => inf
  | neginf, _ => neginf
  | _, neginf => neginf
  | num a, num b => num (a + b)

/-- IEEE-style subtraction on `PVal`. -/
def PVal.sub : PVal → PVal → PVal
  | nan, _ => nan
  | _, nan => nan
  | inf, inf => nan
  | neginf, neginf => nan
  | inf, _ => inf
  | neginf, _ => neginf
  | _, inf => neginf
  | _, neginf => inf
  | num a, num b => num (a - b)

/-- IEEE/numpy-style division on `PVal`: a nonzero number divided by zero
gives a signed infinity, zero divided by zero gives NaN, a number divided
by infinity gives zero. -/
def PVal.div : PVal → PVal → PVal
  | nan, _ => nan
  | _, nan => nan
  | inf, inf => nan
  | inf, neginf => nan
  | neginf, inf => nan
  | neginf, neginf => nan
  | inf, num b => if b < 0 then neginf else inf
  | neginf, num b => if b < 0 then inf else neginf
  | num _, inf => num 0
  | num _, neginf => num 0
  | num a, num b =>
    if b = 0 then (if 0 < a then inf else if a < 0 then neginf else nan)
    else num (a / b)

/-- IEEE-style strict comparison: any comparison with NaN is false. -/
def PVal.ltB : PVal → PVal → Bool
  | nan, _ => false
  | _, nan => false
  | inf, _ => false
  | _, neginf => false
  | neginf, _ => true
  | _, inf => true
  | num a, num b => a < b

/-- IEEE-style non-strict comparison: any comparison with NaN is false. -/
def PVal.leB : PVal → PVal → Bool
  | nan, _ => false
  | _, nan => false
  | inf, inf => true
  | inf, _ => false
  | neginf, _ => true
  | _, inf => true
  | num _, neginf => false
  | num a, num b => a ≤ b

/-- Model of `pd.isna` on one cell. -/
def PVal.isna : PVal → Bool
  | nan => true
  | _ => false

/-- Strategy configuration extracted in `TradingStrategy.__init__` from
`config['strategy']`. -/
structure StrategyConfig where
  emaFastPeriod : ℕ
  emaSlowPeriod : ℕ
  rsiPeriod : ℕ
  volumeSmaPeriod : ℕ
  rsiMin : ℚ
  rsiMax : ℚ
  takeProfitPct : ℚ
  stopLossPct : ℚ
  maxDurationMinutes : ℚ

/-- Recursion for `ewm(span=period, adjust=False).mean()` after the seed:
each output is `(1 - alpha) * previous + alpha * x`. -/
def emaAux (alpha prev : ℚ) : List ℚ → List ℚ
  | [] => []
  | x :: xs =>
    let y := (1 - alpha) * prev + alpha * x
    y :: emaAux alpha y xs

/-- Embedding of `TradingStrategy.calculate_ema`:
`df['close'].ewm(span=period, adjust=False).mean()` with smoothing factor
`alpha = 2 / (period + 1)`, seeded by the first close.  The output is
defined (a plain number) from bar 0 on. -/
def calculateEma (closes : List ℚ) (period : ℕ) : List ℚ :=
  match closes with
  | [] => []
  | x :: xs => x :: emaAux (2 / ((period : ℚ) + 1)) x xs

/-- Successive differences against a carried previous value; every produced
cell is a plain number. -/
def diffAux (prev : ℚ) : List ℚ → List PVal
  | [] => []
  | x :: xs => PVal.num (x - prev) :: diffAux x xs

/-- Embedding of `df['close'].diff()`: NaN at index 0, then successive
differences. -/
def seriesDiff : List ℚ → List PVal
  | [] => []
  | x :: xs => PVal.nan :: diffAux x xs

/-- Embedding of one cell of `delta.where(delta > 0, 0)`: keep positive
deltas, replace everything else — including the leading NaN, for which the
comparison is false — by 0. -/
def gainVal : PVal → ℚ
  | PVal.num q => if 0 < q then q else 0
  | _ => 0

/-- Embedding of one cell of `(-delta.where(delta < 0, 0))`: the magnitude
of negative deltas, 0 elsewhere (including the leading NaN). -/
def lossVal : PVal → ℚ
  | PVal.num q => if q < 0 then -q else 0
  | _ => 0

/-- One cell of `rolling(window=period).mean()`: NaN while the window is
incomplete, else the arithmetic mean of the trailing `period` values
(pandas rejects a zero window, so `period ≥ 1` always holds at call
sites). -/
def rollingMeanAt (period : ℕ) (xs : List ℚ) (i : ℕ) : PVal :=
  if i + 1 < period then PVal.nan
  else PVal.num (((xs.take (i + 1)).drop (i + 1 - period)).sum / period)

/-- Embedding of `rolling(window=period).mean()` over a whole series. -/
def rollingMean (period : ℕ) (xs : List ℚ) : List PVal :=
  (List.range xs.length).map (rollingMeanAt period xs)

/-- Embedding of `TradingStrategy.calculate_rsi`: rolling simple means of
positive and negative deltas, `rs = gain / loss` and
`rsi = 100 - 100 / (1 + rs)` computed cell-wise with numpy float
semantics. -/
def calculateRsi (closes : List ℚ) (period : ℕ) : List PVal :=
  let delta := seriesDiff closes
  let gains := delta.map gainVal
  let losses := delta.map lossVal
  (List.range closes.length).map (fun i =>
    let rs := PVal.div (rollingMeanAt period gains i) (rollingMeanAt period losses i)
    PVal.sub (PVal.num 100) (PVal.div (PVal.num 100) (PVal.add (PVal.num 1) rs)))

/-- Embedding of `TradingStrategy.calculate_volume_sma`. -/
def calculateVolumeSma (volumes : List ℚ) (period : ℕ) : List PVal :=
  rollingMean period volumes

/-- One input OHLCV bar; only the `close` and `volume` columns are ever
read by the strategy, so the other columns are not modelled. -/
structure RawBar where
  close : ℚ
  volume : ℚ

/-- One indicator-augmented bar as produced by
`TradingStrategy.add_indicators`.  The EMA columns are stored as `PVal`
because `check_entry_conditions` probes them with `pd.isna` (for frames
produced by `add_indicators` from a nonempty series they are always plain
numbers). -/
structure Bar where
  close : ℚ
  volume : ℚ
  emaFast : PVal
  emaSlow : PVal
  rsi : PVal
  volumeSma : PVal

/-- Embedding of `TradingStrategy.add_indicators`: attach the two EMAs, the
RSI and the volume SMA column to each bar. -/
def addIndicators (cfg : StrategyConfig) (raw : List RawBar) : List Bar :=
  let closes := raw.map RawBar.close
  let vols := raw.map RawBar.volume
  let ef := calculateEma closes cfg.emaFastPeriod
  let es := calculateEma closes cfg.emaSlowPeriod
  let rsis := calculateRsi closes cfg.rsiPeriod
  let vsma := calculateVolumeSma vols cfg.volumeSmaPeriod
  (List.range raw.length).map (fun i =>
    { close := closes.getD i 0
      volume := vols.getD i 0
      emaFast := PVal.num (ef.getD i 0)
      emaSlow := PVal.num (es.getD i 0)
      rsi := rsis.getD i PVal.nan
      volumeSma := vsma.getD i PVal.nan })

/-- The RSI band test of entry condition 3, a Python chained comparison
`rsi_min <= rsi <= rsi_max` (false whenever the RSI cell is NaN). -/
def rsiInRange (cfg : StrategyConfig) (rsi : PVal) : Bool :=
  PVal.leB (PVal.num cfg.rsiMin) rsi && PVal.leB rsi (PVal.num cfg.rsiMax)

/-- Embedding of `TradingStrategy.check_entry_conditions`.  `none` models a
Python `None` frame.  The source checks only `len(df_fast)` against the
minimum lookback and then indexes `df_slow.iloc[-1]` unconditionally; an
empty slow frame therefore raises `IndexError`, modelled as
`Except.error ()`. -/
def checkEntryConditions (cfg : StrategyConfig)
    (dfFast dfSlow : Option (List Bar)) : Except Unit Bool :=
  match dfFast, dfSlow with
  | none, _ => Except.ok false
  | _, none => Except.ok false
  | some f, some s =>
    if f.length < max cfg.emaSlowPeriod (max cfg.rsiPeriod cfg.volumeSmaPeriod) then
      Except.ok false
    else
      match f.getLast?, s.getLast? with
      | some lf, some ls =>
        if lf.emaFast.isna || lf.emaSlow.isna then Except.ok false
        else if ls.emaFast.isna || ls.emaSlow.isna then Except.ok false
        else
          let priceAboveEmaFast := PVal.ltB lf.emaSlow (PVal.num lf.close)
          let priceAboveEmaSlow := PVal.ltB ls.emaSlow (PVal.num ls.close)
          let emaCrossFast := PVal.ltB lf.emaSlow lf.emaFast
          let emaCrossSlow := PVal.ltB ls.emaSlow ls.emaFast
          let volumeAboveAvg := PVal.ltB lf.volumeSma (PVal.num lf.volume)
          Except.ok (priceAboveEmaFast && priceAboveEmaSlow && emaCrossFast &&
            emaCrossSlow && rsiInRange cfg lf.rsi && volumeAboveAvg)
      | _, _ => Except.error ()

/-- Embedding of `TradingStrategy.check_emergency_exit`: bearish EMA cross
between the last two bars of the fast frame; false for a missing frame or
fewer than two bars. -/
def checkEmergencyExit (dfFast : Option (List Bar)) : Bool :=
  match dfFast with
  | none => false
  | some l =>
    if l.length < 2 then false
    else
      match l.reverse with
      | latest :: previous :: _ =>
        PVal.leB previous.emaSlow previous.emaFast &&
          PVal.ltB latest.emaFast latest.emaSlow
      | _ => false

/-- Take-profit and stop-loss prices as computed by
`TradingStrategy.calculate_tp_sl`. -/
structure TpSl where
  takeProfit : ℚ
  stopLoss : ℚ

/-- Embedding of `TradingStrategy.calculate_tp_sl`:
`entry * (1 + tp_pct/100)` and `entry * (1 - sl_pct/100)`. -/
def calculateTpSl (cfg : StrategyConfig) (entryPrice : ℚ) : TpSl :=
  { takeProfit := entryPrice * (1 + cfg.takeProfitPct / 100)
    stopLoss := entryPrice * (1 - cfg.stopLossPct / 100) }

/-- Embedding of `TradingStrategy.should_exit`: the four exit conditions
tested in source order, first match returned. -/
def shouldExit (cfg : StrategyConfig) (currentPrice entryPrice durationMinutes : ℚ)
    (dfFast : Option (List Bar)) : Bool × String :=
  let tpsl := calculateTpSl cfg entryPrice
  if currentPrice ≤ tpsl.stopLoss then (true, "STOP_LOSS")
  else if currentPrice ≥ tpsl.takeProfit then (true, "TAKE_PROFIT")
  else if durationMinutes ≥ cfg.maxDurationMinutes then (true, "TIME_EXIT")
  else if checkEmergencyExit dfFast then (true, "EMERGENCY_EXIT")
  else (false, "")

/-- Claim C7: `should_exit` tests its conditions in the fixed order
STOP_LOSS, TAKE_PROFIT, TIME_EXIT, EMERGENCY_EXIT and reports the first
that holds; in particular, whenever the stop-loss condition holds — even
simultaneously with the time-exit condition — the reported reason is
STOP_LOSS. -/
theorem should_exit_priority (cfg : StrategyConfig) (p e d : ℚ)
    (df : Option (List Bar)) :
    (p ≤ e * (1 - cfg.stopLossPct / 100) →
      shouldExit cfg p e d df = (true, "STOP_LOSS")) ∧
    (¬ p ≤ e * (1 - cfg.stopLossPct / 100) →
      e * (1 + cfg.takeProfitPct / 100) ≤ p →
      shouldExit cfg p e d df = (true, "TAKE_PROFIT")) ∧
    (¬ p ≤ e * (1 - cfg.stopLossPct / 100) →
      ¬ e * (1 + cfg.takeProfitPct / 100) ≤ p →
      cfg.maxDurationMinutes ≤ d →
      shouldExit cfg p e d df = (true, "TIME_EXIT")) ∧
    (¬ p ≤ e * (1 - cfg.stopLossPct / 100) →
      ¬ e * (1 + cfg.takeProfitPct / 100) ≤ p →
      ¬ cfg.maxDurationMinutes ≤ d →
      checkEmergencyExit df = true →
      shouldExit cfg p e d df = (true, "EMERGENCY_EXIT")) ∧
    (p ≤ e * (1 - cfg.stopLossPct / 100) → cfg.maxDurationMinutes ≤ d →
      shouldExit cfg p e d df = (true, "STOP_LOSS")) := by
  simp only [shouldExit, calculateTpSl, ge_iff_le]
  refine ⟨?_, ?_, ?_, ?_, ?_⟩
  · intro h1
    rw [if_pos h1]
  · intro h1 h2
    rw [if_neg h1, if_pos h2]
  · intro h1 h2 h3
    rw [if_neg h1, if_neg h2, if_pos h3]
  · intro h1 h2 h3 h4
    rw [if_neg h1, if_neg h2, if_neg h3, if_pos h4]
  · intro h1 _
    rw [if_pos h1]

/-- Witness for C7: entry 100 with a 0.6% stop places the stop at 99.4;
price 99 triggers the stop-loss condition and duration 50 exceeds the
45-minute limit, yet the reported reason is STOP_LOSS. -/
theorem should_exit_priority_witness :
    shouldExit ⟨50, 200, 14, 20, 40, 60, 6/5, 3/5, 45⟩ 99 100 50 none =
      (true, "STOP_LOSS") :=
  (should_exit_priority ⟨50, 200, 14, 20, 40, 60, 6/5, 3/5, 45⟩ 99 100 50
      none).2.2.2.2 (by norm_num) (by norm_num)

/-- Claim C3 (amended): entry evaluation returns false whenever a frame is
missing or the FAST frame's length is below the minimum required lookback
`max(ema_slow_period, rsi_period, volume_avg_period)`, regardless of the
values in the series; the slow frame's length is not checked. -/
theorem check_entry_insufficient_fast_history :
    (∀ (cfg : StrategyConfig) (s : Option (List Bar)),
      checkEntryConditions cfg none s = Except.ok false) ∧
    (∀ (cfg : StrategyConfig) (f : Option (List Bar)),
      checkEntryConditions cfg f none = Except.ok false) ∧
    (∀ (cfg : StrategyConfig) (f : List Bar) (s : Option (List Bar)),
      f.length < max cfg.emaSlowPeriod (max cfg.rsiPeriod cfg.volumeSmaPeriod) →
      checkEntryConditions cfg (some f) s = Except.ok false) := by
  refine ⟨fun cfg s => ?_, fun cfg f => ?_, fun cfg f s h => ?_⟩
  · cases s <;> rfl
  · cases f <;> rfl
  · cases s with
    | none => rfl
    | some l =>
      simp only [checkEntryConditions]
      rw [if_pos h]

/-- Witness for C3 (amended): an empty fast frame is rejected whatever the
slow frame holds. -/
theorem check_entry_insufficient_fast_history_witness :
    checkEntryConditions ⟨2, 3, 3, 3, 40, 60, 6/5, 3/5, 45⟩ (some []) none =
      Except.ok false :=
  check_entry_insufficient_fast_history.2.2 ⟨2, 3, 3, 3, 40, 60, 6/5, 3/5, 45⟩
    [] none (by norm_num)

/-- Strategy configuration used by the C3 counterexample: EMA periods 2/3,
RSI period 3, volume SMA period 3 and the default 40-60 RSI band, so that
the minimum lookback is 3 bars. -/
def c3Config : StrategyConfig :=
  { emaFastPeriod := 2, emaSlowPeriod := 3, rsiPeriod := 3,
    volumeSmaPeriod := 3, rsiMin := 40, rsiMax := 60,
    takeProfitPct := 6/5, stopLossPct := 3/5, maxDurationMinutes := 45 }

/-- Fast frame of the C3 counterexample: three bars whose indicators meet
every entry condition. -/
def c3FastRaw : List RawBar := [⟨100, 10⟩, ⟨92, 10⟩, ⟨100, 20⟩]

/-- Slow frame of the C3 counterexample: only two bars, strictly below the
minimum lookback of 3. -/
def c3SlowRaw : List RawBar := [⟨90, 1⟩, ⟨100, 1⟩]

/-- Counterexample to claim C3 as stated: the slow frame has 2 bars, below
the minimum lookback of 3, yet entry evaluation still returns true, because
the source checks only the fast frame's length. -/
theorem check_entry_short_slow_counterexample :
    (addIndicators c3Config c3SlowRaw).length <
      max c3Config.emaSlowPeriod (max c3Config.rsiPeriod c3Config.volumeSmaPeriod) ∧
    checkEntryConditions c3Config (some (addIndicators c3Config c3FastRaw))
      (some (addIndicators c3Config c3SlowRaw)) = Except.ok true := by
  have hslow : addIndicators c3Config c3SlowRaw =
      [⟨90, 1, PVal.num 90, PVal.num 90, PVal.nan, PVal.nan⟩,
        ⟨100, 1, PVal.num (290/3), PVal.num 95, PVal.nan, PVal.nan⟩] := by
    norm_num [addIndicators, c3Config, c3SlowRaw, calculateEma, emaAux,
      calculateRsi, calculateVolumeSma, rollingMean, rollingMeanAt,
      seriesDiff, diffAux, gainVal, lossVal, PVal.div, PVal.add, PVal.sub,
      List.range_succ]
  have hfast : addIndicators c3Config c3FastRaw =
      [⟨100, 10, PVal.num 100, PVal.num 100, PVal.nan, PVal.nan⟩,
        ⟨92, 10, PVal.num (284/3), PVal.num 96, PVal.nan, PVal.nan⟩,
        ⟨100, 20, PVal.num (884/9), PVal.num 98, PVal.num 50,
          PVal.num (40/3)⟩] := by
    norm_num [addIndicators, c3Config, c3FastRaw, calculateEma, emaAux,
      calculateRsi, calculateVolumeSma, rollingMean, rollingMeanAt,
      seriesDiff, diffAux, gainVal, lossVal, PVal.div, PVal.add, PVal.sub,
      List.range_succ]
  rw [hslow, hfast]
  constructor
  · norm_num [c3Config]
  · norm_num [checkEntryConditions, c3Config, rsiInRange, PVal.isna,
      PVal.ltB, PVal.leB]

/-- Length of the carried-difference list. -/
theorem diffAux_length (prev : ℚ) (xs : List ℚ) :
    (diffAux prev xs).length = xs.length := by
  induction xs generalizing prev with
  | nil => rfl
  | cons x xs ih => simp [diffAux, ih]

/-- `diff` preserves the series length. -/
theorem seriesDiff_length (xs : List ℚ) : (seriesDiff xs).length = xs.length := by
  cases xs with
  | nil => rfl
  | cons x xs => simp [seriesDiff, diffAux_length]

/-- The last element of a map over `List.range n`. -/
theorem range_map_getLast? {α : Type} (f : ℕ → α) (n : ℕ) (hn : n ≠ 0) :
    ((List.range n).map f).getLast? = some (f (n - 1)) := by
  cases n with
  | zero => exact absurd rfl hn
  | succ m =>
    rw [List.range_succ, List.map_append]
    exact List.getLast?_concat _

/-- Over a strictly increasing tail, every carried difference is a strictly
positive number. -/
theorem diffAux_pos {prev : ℚ} {xs : List ℚ}
    (h : List.Chain (· < ·) prev xs) :
    ∀ v ∈ diffAux prev xs, ∃ d : ℚ, v = PVal.num d ∧ 0 < d := by
  induction xs generalizing prev with
  | nil => simp [diffAux]
  | cons x xs ih =>
    cases h with
    | cons hlt htail =>
      intro v hv
      simp only [diffAux, List.mem_cons] at hv
      rcases hv with rfl | hv
      · exact ⟨x - prev, rfl, by linarith⟩
      · exact ih htail v hv

/-- For a strictly increasing close series, every cell of the loss column
is zero. -/
theorem losses_zero (closes : List ℚ) (hmono : closes.Chain' (· < ·)) :
    ∀ q ∈ (seriesDiff closes).map lossVal, q = 0 := by
  intro q hq
  rw [List.mem_map] at hq
  obtain ⟨v, hv, rfl⟩ := hq
  cases closes with
  | nil => simp [seriesDiff] at hv
  | cons c cs =>
    simp only [seriesDiff, List.mem_cons] at hv
    rcases hv with rfl | hv
    · rfl
    · obtain ⟨d, rfl, hd⟩ := diffAux_pos hmono v hv
      simp [lossVal, not_lt.mpr hd.le]

/-- Gain cells are never negative. -/
theorem gainVal_nonneg (v : PVal) : 0 ≤ gainVal v := by
  cases v with
  | num q =>
    simp only [gainVal]
    split <;> linarith
  | nan => exact le_refl 0
  | inf => exact le_refl 0
  | neginf => exact le_refl 0

/-- Over a strictly increasing nonempty tail, the last carried difference is
a strictly positive number. -/
theorem diffAux_getLast?_pos {prev : ℚ} {xs : List ℚ} (hne : xs ≠ [])
    (h : List.Chain (· < ·) prev xs) :
    ∃ d : ℚ, 0 < d ∧ (diffAux prev xs).getLast? = some (PVal.num d) := by
  induction xs generalizing prev with
  | nil => exact absurd rfl hne
  | cons x xs ih =>
    cases h with
    | cons hlt htail =>
      cases xs with
      | nil => exact ⟨x - prev, by linarith, rfl⟩
      | cons y ys =>
        obtain ⟨d, hd, hlast⟩ := ih (by simp) htail
        refine ⟨d, hd, ?_⟩
        have hstep : diffAux prev (x :: y :: ys) =
            PVal.num (x - prev) :: PVal.num (y - x) :: diffAux y ys := rfl
        have hstep2 : diffAux x (y :: ys) = PVal.num (y - x) :: diffAux y ys := rfl
        rw [hstep, List.getLast?_cons_cons, ← hstep2, hlast]

/-- For a strictly increasing close series of at least two bars, the last
cell of the gain column is a strictly positive number. -/
theorem gains_getLast?_pos (closes : List ℚ) (h2 : 2 ≤ closes.length)
    (hmono : closes.Chain' (· < ·)) :
    ∃ d : ℚ, 0 < d ∧
      ((seriesDiff closes).map gainVal).getLast? = some d := by
  cases closes with
  | nil => simp at h2
  | cons c cs =>
    cases cs with
    | nil => simp at h2
    | cons y ys =>
      obtain ⟨d, hd, hlast⟩ := diffAux_getLast?_pos (by simp) hmono
      refine ⟨d, hd, ?_⟩
      rw [List.getLast?_map]
      have hstep : seriesDiff (c :: y :: ys) =
          PVal.nan :: PVal.num (y - c) :: diffAux y ys := rfl
      have hstep2 : diffAux c (y :: ys) = PVal.num (y - c) :: diffAux y ys := rfl
      rw [hstep, List.getLast?_cons_cons, ← hstep2, hlast]
      simp [gainVal, hd]

/-- Claim C5: on a monotonically increasing close series (zero rolling
average loss), the RSI computation neither crashes nor silently yields an
infinite value — the final RSI cell is the plain number 100 — and the entry
RSI band test rejects that value as a signal for any band whose upper bound
is below 100 (the configured band is 40-60). -/
theorem rsi_monotone_increasing_no_signal (closes : List ℚ) (period : ℕ)
    (hp : 1 ≤ period) (hpn : period ≤ closes.length) (h2 : 2 ≤ closes.length)
    (hmono : closes.Chain' (· < ·)) :
    (calculateRsi closes period).getLast? = some (PVal.num 100) ∧
    ∀ cfg : StrategyConfig, cfg.rsiMax < 100 →
      rsiInRange cfg (PVal.num 100) = false := by
  constructor
  · have hn0 : closes.length ≠ 0 := by omega
    have hp0 : (0 : ℚ) < (period : ℚ) := by
      have : 0 < period := hp
      exact_mod_cast this
    simp only [calculateRsi]
    rw [range_map_getLast? _ _ hn0]
    have hidx1 : closes.length - 1 + 1 = closes.length := by omega
    have hguard : ¬ (closes.length - 1 + 1 < period) := by omega
    -- the loss column's rolling mean over the final window is zero
    have hLlen : ((seriesDiff closes).map lossVal).length = closes.length := by
      rw [List.length_map, seriesDiff_length]
    have hlm : rollingMeanAt period ((seriesDiff closes).map lossVal)
        (closes.length - 1) = PVal.num 0 := by
      rw [rollingMeanAt, if_neg hguard, hidx1]
      have htake : ((seriesDiff closes).map lossVal).take closes.length =
          (seriesDiff closes).map lossVal := by
        rw [← hLlen]; exact List.take_length _
      rw [htake]
      have hsum : (((seriesDiff closes).map lossVal).drop
          (closes.length - period)).sum = 0 :=
        List.sum_eq_zero fun q hq =>
          losses_zero closes hmono q (List.mem_of_mem_drop hq)
      rw [hsum, zero_div]
    -- the gain column's rolling mean over the final window is positive
    have hGlen : ((seriesDiff closes).map gainVal).length = closes.length := by
      rw [List.length_map, seriesDiff_length]
    obtain ⟨d, hd, hlastG⟩ := gains_getLast?_pos closes h2 hmono
    have hidxG : ((seriesDiff closes).map gainVal)[closes.length - 1]? = some d := by
      rw [← hGlen, ← List.getLast?_eq_getElem?]
      exact hlastG
    have hdropG : (((seriesDiff closes).map gainVal).drop
        (closes.length - period))[period - 1]? = some d := by
      rw [List.getElem?_drop]
      have : closes.length - period + (period - 1) = closes.length - 1 := by omega
      rw [this]
      exact hidxG
    have hmemG : d ∈ ((seriesDiff closes).map gainVal).drop
        (closes.length - period) := List.getElem?_mem hdropG
    have hnonnegG : ∀ x ∈ ((seriesDiff closes).map gainVal).drop
        (closes.length - period), 0 ≤ x := by
      intro x hx
      have hx2 : x ∈ (seriesDiff closes).map gainVal := List.mem_of_mem_drop hx
      rw [List.mem_map] at hx2
      obtain ⟨v, _, rfl⟩ := hx2
      exact gainVal_nonneg v
    have hS : 0 < (((seriesDiff closes).map gainVal).drop
        (closes.length - period)).sum :=
      lt_of_lt_of_le hd (List.single_le_sum hnonnegG d hmemG)
    have hgm : rollingMeanAt period ((seriesDiff closes).map gainVal)
        (closes.length - 1) =
        PVal.num ((((seriesDiff closes).map gainVal).drop
          (closes.length - period)).sum / period) := by
      rw [rollingMeanAt, if_neg hguard, hidx1]
      have htake : ((seriesDiff closes).map gainVal).take closes.length =
          (seriesDiff closes).map gainVal := by
        rw [← hGlen]; exact List.take_length _
      rw [htake]
    have hSp : 0 < (((seriesDiff closes).map gainVal).drop
        (closes.length - period)).sum / (period : ℚ) := div_pos hS hp0
    rw [hgm, hlm]
    simp [PVal.div, PVal.add, PVal.sub, hSp]
  · intro cfg h
    have hdec : (decide ((100 : ℚ) ≤ cfg.rsiMax)) = false :=
      decide_eq_false (not_le.mpr h)
    simp [rsiInRange, PVal.leB, hdec]

/-- Witness for C5 on the strictly increasing series 1, 2, 3 with RSI
period 3 and the default 40-60 band. -/
theorem rsi_monotone_increasing_no_signal_witness :
    (calculateRsi [1, 2, 3] 3).getLast? = some (PVal.num 100) ∧
    rsiInRange ⟨2, 3, 3, 3, 40, 60, 6/5, 3/5, 45⟩ (PVal.num 100) = false := by
  have h := rsi_monotone_increasing_no_signal [1, 2, 3] 3 (by norm_num)
    (by norm_num) (by norm_num) (by norm_num [List.chain'_cons])
  exact ⟨h.1, h.2 ⟨2, 3, 3, 3, 40, 60, 6/5, 3/5, 45⟩ (by norm_num)⟩

/- ===== bot/trader.py ===== -/

/-- Embedding of the `Position` object created in
`TradingBot.open_position` (`entry_time` is an abstract timestamp). -/
structure TradePosition where
  symbol : String
  entryPrice : ℚ
  quantity : ℚ
  entryTime : ℚ
  stopLoss : ℚ
  takeProfit : ℚ

/-- The fill fields of an order result actually read back by the bot
(`order['price']` and `order['executedQty']`). -/
structure OrderResult where
  price : ℚ
  executedQty : ℚ

/-- Static configuration of `TradingBot` relevant to opening and closing
positions: risk and strategy settings, the traded symbol, the dry-run
flag, and the exchange constraints fetched once at startup. -/
structure BotConfig where
  risk : RiskConfig
  strat : StrategyConfig
  symbol : String
  dryRun : Bool
  minNotional : ℚ
  stepSize : ℚ

/-- One tick's external world as seen by `open_position`/`close_position`:
the current-price and balance fetches (`none` models a failed call) and the
exchange's response to an order submission (`none` models a raised
exception, i.e. a failed order).  `now` is the wall-clock timestamp used
for `entry_time`. -/
structure BotEnv where
  currentPrice : Option ℚ
  balance : Option ℚ
  buyOrderResult : Option OrderResult
  sellOrderResult : Option OrderResult
  now : ℚ

/-- Embedding of `TradingBot.execute_market_buy`: in dry-run mode the order
is simulated from the current price (failing exactly when the price fetch
fails); in live mode the result is the exchange's response, `none` on a
raised exception. -/
def executeMarketBuy (cfg : BotConfig) (env : BotEnv) (quantity : ℚ) :
    Option OrderResult :=
  if cfg.dryRun then
    match env.currentPrice with
    | none => none
    | some p => some ⟨p, quantity⟩
  else env.buyOrderResult

/-- Embedding of `TradingBot.execute_market_sell`, symmetric to the buy
path. -/
def executeMarketSell (cfg : BotConfig) (env : BotEnv) (quantity : ℚ) :
    Option OrderResult :=
  if cfg.dryRun then
    match env.currentPrice with
    | none => none
    | some p => some ⟨p, quantity⟩
  else env.sellOrderResult

/-- Embedding of `TradingBot.open_position`.  The input position is the
bot's `self.position` before the attempt; the result is the position after
the attempt together with the returned success flag.  Every guard of the
source (capacity, price fetch, balance fetch, zero sizing, trade
validation, order execution) returns with the position unchanged. -/
def openPosition (cfg : BotConfig) (env : BotEnv)
    (position : Option TradePosition) : Option TradePosition × Bool :=
  let currentPositions := if position.isSome then 1 else 0
  if ¬ canOpenPosition cfg.risk currentPositions then (position, false)
  else
    match env.currentPrice with
    | none => (position, false)
    | some currentPrice =>
      match env.balance with
      | none => (position, false)
      | some balance =>
        let tpsl := calculateTpSl cfg.strat currentPrice
        let quantity := calculatePositionSize cfg.risk balance currentPrice
          tpsl.stopLoss cfg.minNotional cfg.stepSize
        if quantity = 0 then (position, false)
        else
          let v := validateTrade quantity currentPrice balance cfg.minNotional
          if ¬ v.1 then (position, false)
          else
            match executeMarketBuy cfg env quantity with
            | none => (position, false)
            | some order =>
              (some ⟨cfg.symbol, order.price, order.executedQty, env.now,
                tpsl.stopLoss, tpsl.takeProfit⟩, true)

/-- Embedding of `TradingBot.close_position`.  The position is cleared only
after a successful sell order; a failed price fetch or failed order leaves
it untouched. -/
def closePosition (cfg : BotConfig) (env : BotEnv)
    (position : Option TradePosition) : Option TradePosition × Bool :=
  match position with
  | none => (none, false)
  | some p =>
    match env.currentPrice with
    | none => (some p, false)
    | some _ =>
      match executeMarketSell cfg env p.quantity with
      | none => (some p, false)
      | some _ => (none, true)

/-- Claim C8: a failed order submission leaves the position state exactly
as it was before the attempt — a failed open keeps the bot positionless
(and in fact never alters whatever position state it started from), and a
failed close keeps the existing position open and unmodified. -/
theorem execution_failure_preserves_position (cfg : BotConfig) (env : BotEnv)
    (position : Option TradePosition) (p : TradePosition) :
    ((∀ q : ℚ, executeMarketBuy cfg env q = none) →
      openPosition cfg env position = (position, false)) ∧
    (executeMarketSell cfg env p.quantity = none →
      closePosition cfg env (some p) = (some p, false)) := by
  constructor
  · intro hbuy
    simp only [openPosition]
    split
    all_goals
      split
      · rfl
      split
      · rfl
      split
      · rfl
      split
      · rfl
      split
      · rfl
      rw [hbuy]
  · intro hsell
    simp only [closePosition]
    split
    · rfl
    rw [hsell]

/-- Witness for C8: a live-mode environment whose exchange rejects both the
buy and the sell order leaves an open BTCUSDT position untouched, and an
open attempt from flat stays flat. -/
theorem execution_failure_preserves_position_witness :
    openPosition ⟨⟨1, 1⟩, ⟨50, 200, 14, 20, 40, 60, 6/5, 3/5, 45⟩, "BTCUSDT",
        false, 10, 1/1000⟩ ⟨some 100, some 1000, none, none, 0⟩ none =
      (none, false) ∧
    closePosition ⟨⟨1, 1⟩, ⟨50, 200, 14, 20, 40, 60, 6/5, 3/5, 45⟩, "BTCUSDT",
        false, 10, 1/1000⟩ ⟨some 100, some 1000, none, none, 0⟩
        (some ⟨"BTCUSDT", 100, 5, 0, 994/10, 1012/10⟩) =
      (some ⟨"BTCUSDT", 100, 5, 0, 994/10, 1012/10⟩, false) := by
  constructor
  · exact (execution_failure_preserves_position _ _ none
      ⟨"BTCUSDT", 100, 5, 0, 994/10, 1012/10⟩).1
      (fun q => by simp [executeMarketBuy])
  · exact (execution_failure_preserves_position _ _ none
      ⟨"BTCUSDT", 100, 5, 0, 994/10, 1012/10⟩).2
      (by simp [executeMarketSell])
